import Mathlib

/- Verification of the OND-ART CI report validator
   (src/ond_art_ci_pack/validator.py).

   The validator reads JSON report documents, optionally injects a default
   profile, delegates schema conformance to an external oracle, and then
   runs a fixed battery of numeric/logical invariant checks.  We embed the
   JSON data model and the invariant battery shallowly: JSON numbers are
   modelled as exact rationals (the spec phrases the numeric contracts over
   real values with a fixed absolute tolerance), Python `float`/`int` typing
   distinctions are kept in the `Json` type, and each f-string error message
   is modelled as a `Msg` constructor carrying exactly the values the
   f-string interpolates. -/

/-- JSON values as produced by `json.loads`.  Python distinguishes `int`
and `float` (and `bool`, which is a subclass of `int`); we keep all three
so the `isinstance` guards of the validator can be embedded faithfully. -/
inductive Json where
  | null
  | bool (b : Bool)
  | int (n : Int)
  | float (q : ℚ)
  | str (s : String)
  | arr (elems : List Json)
  | obj (fields : List (String × Json))

/-- Tolerance constant `TOL = 1e-12` from validator.py line 22. -/
def TOL : ℚ := 1 / 1000000000000

/-- Disclaimer string from validator.py line 23. -/
def DISCLAIMER_TEXT : String := "Diagnostic only; no security claim."

/-- First-match lookup in a field list: Python `dict.get` / `in`.  Python
dicts have unique keys; first-match semantics coincides on such lists. -/
def lookupField : List (String × Json) → String → Option Json
  | [], _ => none
  | (k, v) :: rest, key => if k = key then some v else lookupField rest key

/-- Python `d[key] = val`: replace the value at an existing key in place
(insertion order preserved), or append a new binding. -/
def setField : List (String × Json) → String → Json → List (String × Json)
  | [], key, val => [(key, val)]
  | (k, v) :: rest, key, val =>
      if k = key then (key, val) :: rest else (k, v) :: setField rest key val

/-- Python `isinstance(x, dict)`. -/
def Json.isObj : Json → Bool
  | .obj _ => true
  | _ => false

/-- Python `x.get(key)` on a dict, total (`none` when the receiver is not a
dict; the validator only calls `.get` on values its guards established to
be dicts, or on the top-level report which the schema constrains). -/
def Json.objGet : Json → String → Option Json
  | .obj fs, k => lookupField fs k
  | _, _ => none

/-- Python `isinstance(x, (int, float))` plus `float(x)` coercion.  `bool`
is a subclass of `int` in Python, so `True`/`False` count as numeric with
values 1/0. -/
def Json.asNum : Json → Option ℚ
  | .int n => some (n : ℚ)
  | .float q => some q
  | .bool b => some (if b then 1 else 0)
  | _ => none

/-- Python `isinstance(x, int)` plus the integer value (`bool` included,
being an `int` subclass). -/
def Json.asInt : Json → Option Int
  | .int n => some n
  | .bool b => some (if b then 1 else 0)
  | _ => none

/-- Python `isinstance(x, str)` plus the string value. -/
def Json.asStr : Json → Option String
  | .str s => some s
  | _ => none

/-- Numeric view of an optional field: `none` when the field is absent or
not numeric. -/
def optNum (o : Option Json) : Option ℚ := o.bind Json.asNum

/-- Embedding of `get_nested(obj, keys)` (validator.py lines 67-73):
descend through nested dicts, `None` when a step is not a dict or the key
is missing. -/
def getNested : Json → List String → Option Json
  | j, [] => some j
  | Json.obj fs, k :: ks =>
      match lookupField fs k with
      | some v => getNested v ks
      | none => none
  | _, _ :: _ => none

/-- Error/warning messages of the invariant battery.  Each constructor
stands for one f-string in validator.py and carries exactly the values the
f-string interpolates, so "the message cites value v" is represented by
the constructor carrying v. -/
inductive Msg where
  | ciLength (path : String)
  | ciOrder (path : String) (lo hi : ℚ)
  | countContain (invalidCount n : Int)
  | outsideCi (label : String) (value lo hi : ℚ)
  | thresholdsMono (thr : Json)
  | thresholdsMalformed
  | forbiddenCls (cls : String)
  | clsWithin (cls : String) (dist yellow : ℚ)
  | clsStrong (cls : String) (dist red : ℚ)
  | clsDeviating (cls : String) (dist : ℚ)
  | missingDisclaimer

/-- Embedding of `ensure_ci_order(ci, path)` (validator.py lines 46-52):
a length-2 interval is valid iff `lo - hi <= TOL`; the violation message
cites both bounds. -/
def ensure_ci_order (ci : List ℚ) (path : String) : Option Msg :=
  match ci with
  | [lo, hi] => if lo - hi > TOL then some (Msg.ciOrder path lo hi) else none
  | _ => some (Msg.ciLength path)

/-- Embedding of `num_in_interval(x, ci)` (validator.py lines 55-57) with
the 2-element list `ci` destructured into `lo, hi` as the Python code
does. -/
def num_in_interval (x lo hi : ℚ) : Bool :=
  decide (x + TOL ≥ lo) && decide (x - TOL ≤ hi)

/-- Embedding of `check_required_numeric_in_ci` (validator.py lines
60-64): skip unless the value is numeric and the ci is a 2-element list;
the Python code then applies `float()` to the ci entries, which the
schema guarantees to be numeric. -/
def check_required_numeric_in_ci (label : String) (value ci : Option Json) : List Msg :=
  match value, ci with
  | some v, some (Json.arr [a, b]) =>
      match v.asNum, a.asNum, b.asNum with
      | some x, some lo, some hi =>
          if num_in_interval x lo hi then [] else [Msg.outsideCi label x lo hi]
      | _, _, _ => []
  | _, _ => []

/-- ASCII lowercasing of one character, as `str.lower` acts on the
disclaimer text and the ASCII part of note strings. -/
def lowerChar (c : Char) : Char :=
  if 65 ≤ c.toNat ∧ c.toNat ≤ 90 then Char.ofNat (c.toNat + 32) else c

/-- Substring containment on character lists: Python `needle in hay`. -/
def subListOf (needle : List Char) : List Char → Bool
  | [] => needle.isEmpty
  | c :: rest => List.isPrefixOf needle (c :: rest) || subListOf needle rest

/-- Embedding of `has_required_disclaimer(notes)` (validator.py lines
76-82): `notes` is `report.get("notes")`, hence an optional value; only a
list can contain the disclaimer, searched case-insensitively in its
string items. -/
def has_required_disclaimer : Option Json → Bool
  | some (Json.arr items) =>
      items.any fun item =>
        match item with
        | Json.str s => subListOf (DISCLAIMER_TEXT.data.map lowerChar) (s.data.map lowerChar)
        | _ => false
  | _ => false

/-- Embedding of `inject_default_profile(report, default_profile)`
(validator.py lines 85-90), as a pure function returning the updated
report.  The profile is (re)written when it is missing, not a string, or
an empty string. -/
def inject_default_profile (report : Json) (default_profile : String) : Json :=
  match report with
  | Json.obj rfs =>
      match lookupField rfs "spec" with
      | some (Json.obj sfs) =>
          let needs : Bool :=
            match lookupField sfs "profile" with
            | some (Json.str s) => s = ""
            | some _ => true
            | none => true
          if needs then
            Json.obj (setField rfs "spec"
              (Json.obj (setField sfs "profile" (Json.str default_profile))))
          else report
      | _ => report
  | _ => report

/-- Configuration derived from the environment (validator.py lines
96-100): the forbidden classification list and the two boolean modes,
plus the default profile to inject. -/
structure Config where
  forbid : List String
  strictClassification : Bool
  requireDisclaimer : Bool
  defaultProfile : String

/-- Count containment check (validator.py lines 176-179): error when both
`data.N` and `data.invalid_count` are ints and `invalid_count > N`. -/
def countCheck (report : Json) : List Msg :=
  match (getNested report ["data", "N"]).bind Json.asInt,
        (getNested report ["data", "invalid_count"]).bind Json.asInt with
  | some n, some invalidCount =>
      if invalidCount > n then [Msg.countContain invalidCount n] else []
  | _, _ => []

/-- One entry of the CI-order scan (validator.py lines 192-196): run
`ensure_ci_order` when the value is a 2-element list of numbers. -/
def ciOrderAt (label : String) : Option Json → List Msg
  | some (Json.arr [a, b]) =>
      match a.asNum, b.asNum with
      | some lo, some hi => (ensure_ci_order [lo, hi] label).toList
      | _, _ => []
  | _ => []

/-- CI-order scan over the known locations (validator.py lines 183-196);
`baseline.distance_ci95` joins the scan only when present. -/
def ciOrderFindings (report : Json) : List Msg :=
  ciOrderAt "metrics.rank.ci95" (getNested report ["metrics", "rank", "ci95"])
  ++ ciOrderAt "metrics.subspace.ci95" (getNested report ["metrics", "subspace", "ci95"])
  ++ ciOrderAt "metrics.branching.ci95" (getNested report ["metrics", "branching", "ci95"])
  ++ (match getNested report ["baseline", "distance_ci95"] with
      | some ci => ciOrderAt "baseline.distance_ci95" (some ci)
      | none => [])

/-- Threshold monotonicity check (validator.py lines 209-217), taking
`baseline.get("thresholds")`.  Skip when absent or not a dict; if a dict,
either all of green/yellow/red are numeric and monotonicity is enforced,
or the thresholds are malformed. -/
def thresholdsCheck : Option Json → List Msg
  | some thr =>
      match thr with
      | Json.obj fs =>
          match optNum (lookupField fs "green"), optNum (lookupField fs "yellow"),
                optNum (lookupField fs "red") with
          | some g, some y, some r =>
              if g ≤ y + TOL ∧ y ≤ r + TOL then [] else [Msg.thresholdsMono (Json.obj fs)]
          | _, _, _ => [Msg.thresholdsMalformed]
      | _ => []
  | none => []

/-- Forbidden classification check (validator.py lines 220-222). -/
def forbiddenClsCheck (forbid : List String) : Option Json → List Msg
  | some (Json.str cls) => if cls ∈ forbid then [Msg.forbiddenCls cls] else []
  | _ => []

/-- Classification/threshold consistency check (validator.py lines
224-235), taking the strict flag and `baseline.get` of "thresholds",
"distance" and "classification".  Three independent `if` statements, one
per contract-bound label; any other label is never flagged. -/
def strictConsistencyCheck (strict : Bool) (thr dist cls : Option Json) : List Msg :=
  if strict then
    match thr with
    | some (Json.obj fs) =>
        match optNum (lookupField fs "green"), optNum (lookupField fs "yellow"),
              optNum (lookupField fs "red"), optNum dist, cls.bind Json.asStr with
        | some g, some y, some r, some d, some c =>
            (if c = "Within Baseline Envelope" ∧ d > y + TOL then
               [Msg.clsWithin c d y] else [])
            ++ (if c = "Strong Deviation" ∧ d < r - TOL then
               [Msg.clsStrong c d r] else [])
            ++ (if c = "Deviating" ∧ ¬(g - TOL ≤ d ∧ d ≤ r + TOL) then
               [Msg.clsDeviating c d] else [])
        | _, _, _, _, _ => []
    | _ => []
  else []

/-- Baseline invariants (validator.py lines 203-235): distance-in-CI,
threshold monotonicity, forbidden classification, and strict consistency,
all under the `isinstance(baseline, dict)` guard. -/
def baselineFindings (cfg : Config) (report : Json) : List Msg :=
  match report.objGet "baseline" with
  | some baseline =>
      match baseline with
      | Json.obj fs =>
          check_required_numeric_in_ci "baseline.distance"
            (lookupField fs "distance") (lookupField fs "distance_ci95")
          ++ thresholdsCheck (lookupField fs "thresholds")
          ++ forbiddenClsCheck cfg.forbid (lookupField fs "classification")
          ++ strictConsistencyCheck cfg.strictClassification
               (lookupField fs "thresholds") (lookupField fs "distance")
               (lookupField fs "classification")
      | _ => []
  | none => []

/-- Disclaimer check (validator.py lines 237-243): the missing-disclaimer
message is an error when `REQUIRE_DISCLAIMER` is on, a warning
otherwise. -/
def disclaimerFindings (require_disclaimer : Bool) (notes : Option Json) : List Msg × List Msg :=
  if has_required_disclaimer notes then ([], [])
  else if require_disclaimer then ([Msg.missingDisclaimer], []) else ([], [Msg.missingDisclaimer])

/-- The whole invariant battery (validator.py lines 171-243) on one
schema-conformant report: the `extra_errors` and `extra_warnings` lists,
in the order the code appends to them. -/
def extraFindings (cfg : Config) (report : Json) : List Msg × List Msg :=
  let errs :=
    countCheck report
    ++ ciOrderFindings report
    ++ check_required_numeric_in_ci "metrics.rank.rho"
         (getNested report ["metrics", "rank", "rho"])
         (getNested report ["metrics", "rank", "ci95"])
    ++ check_required_numeric_in_ci "metrics.subspace.rho"
         (getNested report ["metrics", "subspace", "rho"])
         (getNested report ["metrics", "subspace", "ci95"])
    ++ check_required_numeric_in_ci "metrics.branching.H"
         (getNested report ["metrics", "branching", "H"])
         (getNested report ["metrics", "branching", "ci95"])
    ++ baselineFindings cfg report
  let disc := disclaimerFindings cfg.requireDisclaimer (report.objGet "notes")
  (errs ++ disc.1, disc.2)

/-- Finding emission (validator.py lines 245-266): when there are errors
the document fails and only the errors are reported (the `continue` skips
the warning block); warnings are reported only for documents with zero
invariant errors. -/
def emitFindings (errors warnings : List Msg) : List Msg × List Msg :=
  if errors.isEmpty then ([], warnings) else (errors, [])

/-- Default-profile injection as applied by `main` (validator.py lines
148-150): only dict reports are touched. -/
def prepareReport (cfg : Config) (report : Json) : Json :=
  if report.isObj then inject_default_profile report cfg.defaultProfile else report

/-- Findings the validator actually reports for one schema-conformant
document: the invariant battery filtered through the emission logic. -/
def reportedFindings (cfg : Config) (report : Json) : List Msg × List Msg :=
  emitFindings (extraFindings cfg report).1 (extraFindings cfg report).2

/-- Outcome of loading one report file: a JSON parse failure, or a parsed
report together with the schema oracle's error list for the (profile
injected) document.  Schema validation itself is the external oracle of
spec section 4.3. -/
inductive FileResult where
  | badJson
  | parsed (schemaErrors : List String) (report : Json)

/-- One discovered file: its name (for the `.schema.json` skip) and its
load outcome. -/
structure InputFile where
  name : String
  result : FileResult

/-- Python `p.name.endswith(".schema.json")` (validator.py line 134). -/
def isSchemaFile (name : String) : Bool :=
  List.isSuffixOf ".schema.json".data name.data

/-- Whether one processed file sets `any_failed` (validator.py lines
137-259): parse failure, schema errors, or nonempty invariant errors. -/
def docFailed (cfg : Config) (f : InputFile) : Bool :=
  match f.result with
  | FileResult.badJson => true
  | FileResult.parsed schemaErrors report =>
      if schemaErrors.isEmpty then
        !(extraFindings cfg (prepareReport cfg report)).1.isEmpty
      else true

/-- Exit code of `main` from the point where the schema loaded and the
glob ran (validator.py lines 114-273): 0 on an empty batch, else 1 iff
some non-skipped file failed. -/
def runBatch (cfg : Config) (files : List InputFile) : Nat :=
  if files.isEmpty then 0
  else if (files.filter fun f => !isSchemaFile f.name).any (docFailed cfg) then 1 else 0

/-- Looking a key up after `setField` wrote that key yields the written
value. -/
theorem lookupField_setField_self (fs : List (String × Json)) (k : String) (v : Json) :
    lookupField (setField fs k v) k = some v := by
  induction fs with
  | nil => simp [setField, lookupField]
  | cons hd tl ih =>
      obtain ⟨k', v'⟩ := hd
      by_cases h : k' = k
      · simp [setField, h, lookupField]
      · simp [setField, h, lookupField, ih]

/-- Looking a different key up after `setField` is unchanged. -/
theorem lookupField_setField_ne (fs : List (String × Json)) (k k' : String) (v : Json)
    (h : k' ≠ k) : lookupField (setField fs k v) k' = lookupField fs k' := by
  induction fs with
  | nil => simp [setField, lookupField, Ne.symm h]
  | cons hd tl ih =>
      obtain ⟨k0, v0⟩ := hd
      by_cases h0 : k0 = k
      · subst h0
        simp [setField, lookupField, Ne.symm h, h]
      · simp [setField, h0, lookupField, ih]

/-- C1: `num_in_interval(value, [low, high])`, implemented as
`value + tol >= low and value - tol <= high`, holds exactly when the value
lies in the interval widened by `tol` on both sides,
`[low - tol, high + tol]`. -/
theorem num_in_interval_iff_widened (x lo hi : ℚ) :
    num_in_interval x lo hi = true ↔ (lo - TOL ≤ x ∧ x ≤ hi + TOL) := by
  unfold num_in_interval
  simp only [Bool.and_eq_true, decide_eq_true_eq, ge_iff_le]
  constructor
  · rintro ⟨h1, h2⟩
    exact ⟨by linarith, by linarith⟩
  · rintro ⟨h1, h2⟩
    exact ⟨by linarith, by linarith⟩

/-- Evaluation of C1 at a concrete point: 3/10 lies within
[1/10 - tol, 4/10 + tol]. -/
theorem num_in_interval_iff_widened_witness :
    num_in_interval (3 / 10) (1 / 10) (4 / 10) = true := by
  rw [num_in_interval_iff_widened]
  constructor <;> norm_num [TOL]

/-- C2: `ensure_ci_order([lo, hi], path)` accepts exactly when
`lo - hi <= tol`, and on violation reports a message citing both
bounds. -/
theorem ensure_ci_order_spec (lo hi : ℚ) (path : String) :
    (ensure_ci_order [lo, hi] path = none ↔ lo - hi ≤ TOL) ∧
    (lo - hi > TOL → ensure_ci_order [lo, hi] path = some (Msg.ciOrder path lo hi)) := by
  unfold ensure_ci_order
  by_cases h : lo - hi > TOL
  · simp only [if_pos h]
    exact ⟨⟨fun hc => Option.noConfusion hc, fun hle => absurd h (not_lt.mpr hle)⟩,
      fun _ => trivial⟩
  · simp only [if_neg h]
    exact ⟨⟨fun _ => le_of_not_lt h, fun _ => trivial⟩, fun hgt => absurd hgt h⟩

/-- Evaluation of C2 at a concrete reversed interval: (1, 0) is rejected
with a message carrying both bounds. -/
theorem ensure_ci_order_spec_witness :
    ensure_ci_order [1, 0] "metrics.rank.ci95" = some (Msg.ciOrder "metrics.rank.ci95" 1 0) :=
  (ensure_ci_order_spec 1 0 "metrics.rank.ci95").2 (by norm_num [TOL])

/-- C3: the threshold-monotonicity check skips an absent thresholds
block; on a present block with numeric green/yellow/red it errors exactly
when the monotonicity `green <= yellow + tol` and `yellow <= red + tol`
fails (with the malformed-monotonicity message); on a present block whose
green/yellow/red are not all numeric it emits the malformed-thresholds
error. -/
theorem thresholds_check_spec :
    thresholdsCheck none = [] ∧
    (∀ fs g y r,
        optNum (lookupField fs "green") = some g →
        optNum (lookupField fs "yellow") = some y →
        optNum (lookupField fs "red") = some r →
        (thresholdsCheck (some (Json.obj fs)) ≠ [] ↔ ¬(g ≤ y + TOL ∧ y ≤ r + TOL)) ∧
        (¬(g ≤ y + TOL ∧ y ≤ r + TOL) →
          thresholdsCheck (some (Json.obj fs)) = [Msg.thresholdsMono (Json.obj fs)])) ∧
    (∀ fs,
        (optNum (lookupField fs "green") = none ∨
         optNum (lookupField fs "yellow") = none ∨
         optNum (lookupField fs "red") = none) →
        thresholdsCheck (some (Json.obj fs)) = [Msg.thresholdsMalformed]) := by
  refine ⟨rfl, ?_, ?_⟩
  · intro fs g y r hg hy hr
    by_cases h : g ≤ y + TOL ∧ y ≤ r + TOL <;>
      simp [thresholdsCheck, hg, hy, hr, h]
  · intro fs h
    cases hG : optNum (lookupField fs "green") <;>
      cases hY : optNum (lookupField fs "yellow") <;>
        cases hR : optNum (lookupField fs "red") <;>
          simp_all [thresholdsCheck]

/-- Evaluation of C3 at a concrete non-monotone thresholds block
(green 2/10 > yellow 1/10). -/
theorem thresholds_check_spec_witness :
    thresholdsCheck (some (Json.obj
        [("green", Json.float (2 / 10)), ("yellow", Json.float (1 / 10)),
         ("red", Json.float (4 / 10))])) =
      [Msg.thresholdsMono (Json.obj
        [("green", Json.float (2 / 10)), ("yellow", Json.float (1 / 10)),
         ("red", Json.float (4 / 10))])] :=
  (thresholds_check_spec.2.1
      [("green", Json.float (2 / 10)), ("yellow", Json.float (1 / 10)),
       ("red", Json.float (4 / 10))] (2 / 10) (1 / 10) (4 / 10) rfl rfl rfl).2
    (by rw [not_and_or]; left; norm_num [TOL])

/-- C4: under strict mode with numeric thresholds, numeric distance and a
string classification, the consistency check errors exactly when the
label "Within Baseline Envelope" has distance above yellow + tol, the
label "Strong Deviation" has distance below red - tol, or the label
"Deviating" has distance outside [green - tol, red + tol]; any other
label is never flagged. -/
theorem strict_consistency_spec (fs : List (String × Json)) (dist cls : Option Json)
    (g y r d : ℚ) (c : String)
    (hg : optNum (lookupField fs "green") = some g)
    (hy : optNum (lookupField fs "yellow") = some y)
    (hr : optNum (lookupField fs "red") = some r)
    (hd : optNum dist = some d)
    (hc : cls.bind Json.asStr = some c) :
    (strictConsistencyCheck true (some (Json.obj fs)) dist cls ≠ [] ↔
      ((c = "Within Baseline Envelope" ∧ d > y + TOL) ∨
       (c = "Strong Deviation" ∧ d < r - TOL) ∨
       (c = "Deviating" ∧ ¬(g - TOL ≤ d ∧ d ≤ r + TOL)))) ∧
    (c ≠ "Within Baseline Envelope" → c ≠ "Strong Deviation" → c ≠ "Deviating" →
      strictConsistencyCheck true (some (Json.obj fs)) dist cls = []) := by
  constructor
  · by_cases h1 : c = "Within Baseline Envelope" ∧ d > y + TOL <;>
      by_cases h2 : c = "Strong Deviation" ∧ d < r - TOL <;>
        by_cases h3 : c = "Deviating" ∧ ¬(g - TOL ≤ d ∧ d ≤ r + TOL) <;>
          simp [strictConsistencyCheck, hg, hy, hr, hd, hc, h1, h2, h3]
  · intro n1 n2 n3
    simp [strictConsistencyCheck, hg, hy, hr, hd, hc, n1, n2, n3]

/-- Evaluation of C4 at the spec's example: thresholds (0.1, 0.2, 0.4),
distance 0.3, label "Within Baseline Envelope" is flagged under strict
mode. -/
theorem strict_consistency_spec_witness :
    strictConsistencyCheck true
      (some (Json.obj
        [("green", Json.float (1 / 10)), ("yellow", Json.float (2 / 10)),
         ("red", Json.float (4 / 10))]))
      (some (Json.float (3 / 10))) (some (Json.str "Within Baseline Envelope")) ≠ [] :=
  (strict_consistency_spec
      [("green", Json.float (1 / 10)), ("yellow", Json.float (2 / 10)),
       ("red", Json.float (4 / 10))]
      (some (Json.float (3 / 10))) (some (Json.str "Within Baseline Envelope"))
      (1 / 10) (2 / 10) (4 / 10) (3 / 10)
      "Within Baseline Envelope" rfl rfl rfl rfl rfl).1.mpr
    (Or.inl ⟨rfl, by norm_num [TOL]⟩)

/-- C5: when `data.N` and `data.invalid_count` are present non-negative
whole numbers, the count-containment check errors exactly when
`invalid_count > N`, and the error message carries both values. -/
theorem count_check_spec (report : Json) (n c : Int)
    (hN : getNested report ["data", "N"] = some (Json.int n))
    (hc : getNested report ["data", "invalid_count"] = some (Json.int c))
    (hn0 : 0 ≤ n) (hc0 : 0 ≤ c) :
    (countCheck report ≠ [] ↔ c > n) ∧
    (c > n → countCheck report = [Msg.countContain c n]) := by
  by_cases h : c > n <;>
    simp [countCheck, hN, hc, Json.asInt, h]

/-- Evaluation of C5 at the spec's example: N = 10, invalid_count = 11
fails with the count-containment message carrying both values. -/
theorem count_check_spec_witness :
    countCheck (Json.obj [("data", Json.obj
        [("N", Json.int 10), ("invalid_count", Json.int 11)])]) =
      [Msg.countContain 11 10] :=
  (count_check_spec
      (Json.obj [("data", Json.obj [("N", Json.int 10), ("invalid_count", Json.int 11)])])
      10 11 rfl rfl (by norm_num) (by norm_num)).2 (by norm_num)

/-- Counterexample to C6 as stated: a report whose profile field is
present (as the empty string) is nevertheless modified by the
default-profile injection — the profile is rewritten to the default
"core", which differs from the original empty string. -/
theorem inject_overwrites_present_profile :
    getNested (Json.obj [("spec", Json.obj [("profile", Json.str "")])])
        ["spec", "profile"] = some (Json.str "") ∧
    getNested (inject_default_profile
        (Json.obj [("spec", Json.obj [("profile", Json.str "")])]) "core")
        ["spec", "profile"] = some (Json.str "core") ∧
    ("core" : String) ≠ "" :=
  ⟨rfl, rfl, by simp⟩

/-- C6 (amended): the default-profile injection rewrites at most the
`spec.profile` field — a report whose profile is a present non-empty
string is returned unchanged, every path not below `spec` is unchanged,
every path below `spec` other than `profile` is unchanged, and
`spec.profile` itself is either unchanged or set to the default. -/
theorem inject_default_profile_frame (report : Json) (d : String) :
    (∀ s, getNested report ["spec", "profile"] = some (Json.str s) → s ≠ "" →
        inject_default_profile report d = report) ∧
    (∀ k ks, k ≠ "spec" →
        getNested (inject_default_profile report d) (k :: ks) =
          getNested report (k :: ks)) ∧
    (∀ k ks, k ≠ "profile" →
        getNested (inject_default_profile report d) ("spec" :: k :: ks) =
          getNested report ("spec" :: k :: ks)) ∧
    (getNested (inject_default_profile report d) ["spec", "profile"] =
        getNested report ["spec", "profile"] ∨
     getNested (inject_default_profile report d) ["spec", "profile"] =
        some (Json.str d)) := by
  match report with
  | Json.null => exact ⟨fun _ h => by simp [getNested] at h, fun _ _ _ => rfl, fun _ _ _ => rfl, Or.inl rfl⟩
  | Json.bool b => exact ⟨fun _ h => by simp [getNested] at h, fun _ _ _ => rfl, fun _ _ _ => rfl, Or.inl rfl⟩
  | Json.int n => exact ⟨fun _ h => by simp [getNested] at h, fun _ _ _ => rfl, fun _ _ _ => rfl, Or.inl rfl⟩
  | Json.float q => exact ⟨fun _ h => by simp [getNested] at h, fun _ _ _ => rfl, fun _ _ _ => rfl, Or.inl rfl⟩
  | Json.str s => exact ⟨fun _ h => by simp [getNested] at h, fun _ _ _ => rfl, fun _ _ _ => rfl, Or.inl rfl⟩
  | Json.arr xs => exact ⟨fun _ h => by simp [getNested] at h, fun _ _ _ => rfl, fun _ _ _ => rfl, Or.inl rfl⟩
  | Json.obj rfs =>
    cases hspec : lookupField rfs "spec" with
    | none =>
        have hinj : inject_default_profile (Json.obj rfs) d = Json.obj rfs := by
          simp [inject_default_profile, hspec]
        exact ⟨fun _ _ _ => hinj, fun _ _ _ => by rw [hinj], fun _ _ _ => by rw [hinj],
          Or.inl (by rw [hinj])⟩
    | some v =>
      match v with
      | Json.null =>
          have hinj : inject_default_profile (Json.obj rfs) d = Json.obj rfs := by
            simp [inject_default_profile, hspec]
          exact ⟨fun _ _ _ => hinj, fun _ _ _ => by rw [hinj], fun _ _ _ => by rw [hinj],
            Or.inl (by rw [hinj])⟩
      | Json.bool b =>
          have hinj : inject_default_profile (Json.obj rfs) d = Json.obj rfs := by
            simp [inject_default_profile, hspec]
          exact ⟨fun _ _ _ => hinj, fun _ _ _ => by rw [hinj], fun _ _ _ => by rw [hinj],
            Or.inl (by rw [hinj])⟩
      | Json.int n =>
          have hinj : inject_default_profile (Json.obj rfs) d = Json.obj rfs := by
            simp [inject_default_profile, hspec]
          exact ⟨fun _ _ _ => hinj, fun _ _ _ => by rw [hinj], fun _ _ _ => by rw [hinj],
            Or.inl (by rw [hinj])⟩
      | Json.float q =>
          have hinj : inject_default_profile (Json.obj rfs) d = Json.obj rfs := by
            simp [inject_default_profile, hspec]
          exact ⟨fun _ _ _ => hinj, fun _ _ _ => by rw [hinj], fun _ _ _ => by rw [hinj],
            Or.inl (by rw [hinj])⟩
      | Json.str s =>
          have hinj : inject_default_profile (Json.obj rfs) d = Json.obj rfs := by
            simp [inject_default_profile, hspec]
          exact ⟨fun _ _ _ => hinj, fun _ _ _ => by rw [hinj], fun _ _ _ => by rw [hinj],
            Or.inl (by rw [hinj])⟩
      | Json.arr xs =>
          have hinj : inject_default_profile (Json.obj rfs) d = Json.obj rfs := by
            simp [inject_default_profile, hspec]
          exact ⟨fun _ _ _ => hinj, fun _ _ _ => by rw [hinj], fun _ _ _ => by rw [hinj],
            Or.inl (by rw [hinj])⟩
      | Json.obj sfs =>
        by_cases hneeds :
            (match lookupField sfs "profile" with
              | some (Json.str s) => s = ""
              | some _ => true
              | none => true : Bool) = true
        · have hinj : inject_default_profile (Json.obj rfs) d =
              Json.obj (setField rfs "spec"
                (Json.obj (setField sfs "profile" (Json.str d)))) := by
            simp [inject_default_profile, hspec, hneeds]
          refine ⟨?_, ?_, ?_, ?_⟩
          · intro s hs hne
            exfalso
            cases hl : lookupField sfs "profile" with
            | none => simp [getNested, hspec, hl] at hs
            | some w =>
                simp [getNested, hspec, hl] at hs
                subst hs
                rw [hl] at hneeds
                simp only [decide_eq_true_eq] at hneeds
                exact hne hneeds
          · intro k ks hk
            rw [hinj]
            simp [getNested, lookupField_setField_ne _ _ _ _ hk]
          · intro k ks hk
            rw [hinj]
            simp [getNested, lookupField_setField_self, hspec,
              lookupField_setField_ne _ _ _ _ hk]
          · right
            rw [hinj]
            simp [getNested, lookupField_setField_self]
        · have hinj : inject_default_profile (Json.obj rfs) d = Json.obj rfs := by
            simp [inject_default_profile, hspec, hneeds]
          exact ⟨fun _ _ _ => hinj, fun _ _ _ => by rw [hinj], fun _ _ _ => by rw [hinj],
            Or.inl (by rw [hinj])⟩

/-- Evaluation of C6 at a concrete report with a present non-empty
profile: the injection leaves the whole report unchanged. -/
theorem inject_default_profile_frame_witness :
    inject_default_profile
        (Json.obj [("spec", Json.obj [("profile", Json.str "core")]),
                   ("notes", Json.arr [])]) "other" =
      Json.obj [("spec", Json.obj [("profile", Json.str "core")]),
                ("notes", Json.arr [])] :=
  (inject_default_profile_frame
      (Json.obj [("spec", Json.obj [("profile", Json.str "core")]),
                 ("notes", Json.arr [])]) "other").1 "core" rfl (by simp)

/-- C7: from the point where the schema is loaded and the glob resolved,
the exit status is zero iff every discovered non-schema file parsed as
JSON, had no schema errors, and produced zero invariant errors; a parse
failure always fails; warnings do not occur in the condition; an empty
batch exits zero. -/
theorem run_batch_exit_spec (cfg : Config) (files : List InputFile) :
    (runBatch cfg files = 0 ↔
      ∀ f ∈ files, isSchemaFile f.name = false → docFailed cfg f = false) ∧
    (∀ f, f.result = FileResult.badJson → docFailed cfg f = true) ∧
    (∀ f schemaErrors report, f.result = FileResult.parsed schemaErrors report →
      (docFailed cfg f = false ↔
        (schemaErrors = [] ∧ (extraFindings cfg (prepareReport cfg report)).1 = []))) ∧
    runBatch cfg [] = 0 := by
  refine ⟨?_, ?_, ?_, rfl⟩
  · cases files with
    | nil => simp [runBatch]
    | cons a as =>
        have hred : runBatch cfg (a :: as) =
            if ((a :: as).filter fun f => !isSchemaFile f.name).any (docFailed cfg)
            then 1 else 0 := by
          simp [runBatch]
        rw [hred]
        constructor
        · intro h f hf hsf
          by_contra hne
          have hdf : docFailed cfg f = true := by
            cases hdff : docFailed cfg f with
            | true => rfl
            | false => exact absurd hdff hne
          have hfilter : f ∈ (a :: as).filter fun f => !isSchemaFile f.name :=
            List.mem_filter.mpr ⟨hf, by simp [hsf]⟩
          have hany : ((a :: as).filter fun f => !isSchemaFile f.name).any (docFailed cfg)
              = true := List.any_eq_true.mpr ⟨f, hfilter, hdf⟩
          rw [hany] at h
          simp at h
        · intro h
          have hany : ((a :: as).filter fun f => !isSchemaFile f.name).any (docFailed cfg)
              = false := by
            by_contra hne
            obtain ⟨f, hfmem, hfd⟩ :=
              List.any_eq_true.mp (Bool.not_eq_false _ |>.mp hne)
            obtain ⟨hfin, hfkeep⟩ := List.mem_filter.mp hfmem
            have hsf : isSchemaFile f.name = false := by simpa using hfkeep
            rw [h f hfin hsf] at hfd
            exact Bool.false_ne_true hfd
          rw [hany]
          simp
  · intro f h
    unfold docFailed
    rw [h]
  · intro f se report h
    unfold docFailed
    rw [h]
    by_cases hse : se.isEmpty
    · have hseq : se = [] := List.isEmpty_iff.mp hse
      subst hseq
      simp [Bool.not_eq_true', List.isEmpty_iff]
    · have hne : se ≠ [] := fun hh => hse (by simp [hh])
      simp [hse, hne]

/-- Evaluation of C7 on a concrete one-document batch that parses, has no
schema errors and no invariant errors: the run exits zero. -/
theorem run_batch_exit_spec_witness :
    runBatch (Config.mk ["Strong Deviation"] false false "core")
      [InputFile.mk "report-0.json" (FileResult.parsed [] (Json.obj []))] = 0 := by
  apply (run_batch_exit_spec (Config.mk ["Strong Deviation"] false false "core")
    [InputFile.mk "report-0.json" (FileResult.parsed [] (Json.obj []))]).1.mpr
  intro f hf hsf
  have hfe : f = InputFile.mk "report-0.json" (FileResult.parsed [] (Json.obj [])) := by
    simpa using hf
  subst hfe
  rfl

/-- C8: validation is deterministic — identical configuration and input
yield identical invariant findings, identical reported findings and
identical exit status (the embedding is a pure function of its
inputs). -/
theorem validation_deterministic (cfg cfg' : Config) (files files' : List InputFile)
    (report report' : Json) (hc : cfg = cfg') (hf : files = files') (hr : report = report') :
    extraFindings cfg report = extraFindings cfg' report' ∧
    reportedFindings cfg report = reportedFindings cfg' report' ∧
    runBatch cfg files = runBatch cfg' files' := by
  subst hc
  subst hf
  subst hr
  exact ⟨rfl, rfl, rfl⟩

/-- Evaluation of C8 on one concrete document and batch. -/
theorem validation_deterministic_witness :
    extraFindings (Config.mk [] false false "core") Json.null =
      extraFindings (Config.mk [] false false "core") Json.null ∧
    reportedFindings (Config.mk [] false false "core") Json.null =
      reportedFindings (Config.mk [] false false "core") Json.null ∧
    runBatch (Config.mk [] false false "core") [] =
      runBatch (Config.mk [] false false "core") [] :=
  validation_deterministic (Config.mk [] false false "core") (Config.mk [] false false "core")
    [] [] Json.null Json.null rfl rfl rfl

/-- C9: when the notes field is absent or not a list, the disclaimer
check is not skipped: it produces the missing-disclaimer finding — an
error under REQUIRE_DISCLAIMER, a warning otherwise — exactly as for a
present notes list without the disclaimer. -/
theorem disclaimer_missing_notes_spec (require_disclaimer : Bool) (notes : Option Json)
    (h : ∀ items, notes ≠ some (Json.arr items)) :
    disclaimerFindings require_disclaimer notes =
      (if require_disclaimer then ([Msg.missingDisclaimer], ([] : List Msg))
       else ([], [Msg.missingDisclaimer])) ∧
    disclaimerFindings require_disclaimer notes =
      disclaimerFindings require_disclaimer (some (Json.arr [])) := by
  have hh : has_required_disclaimer notes = false := by
    cases notes with
    | none => rfl
    | some v =>
        cases v with
        | arr items => exact absurd rfl (h items)
        | null => rfl
        | bool b => rfl
        | int n => rfl
        | float q => rfl
        | str s => rfl
        | obj fs => rfl
  have hempty : has_required_disclaimer (some (Json.arr [])) = false := rfl
  unfold disclaimerFindings
  rw [hh, hempty]
  simp

/-- Evaluation of C9 with absent notes and REQUIRE_DISCLAIMER on: the
missing-disclaimer finding is an error. -/
theorem disclaimer_missing_notes_spec_witness :
    disclaimerFindings true none = ([Msg.missingDisclaimer], []) := by
  have h := (disclaimer_missing_notes_spec true none fun items hcontra =>
    Option.noConfusion hcontra).1
  simpa using h

/-- C10: a document with at least one invariant error has none of its
warnings reported, and warnings are reported only for documents with
zero invariant errors. -/
theorem warnings_only_without_errors (cfg : Config) (report : Json) :
    ((extraFindings cfg report).1 ≠ [] → (reportedFindings cfg report).2 = []) ∧
    ((reportedFindings cfg report).2 ≠ [] → (extraFindings cfg report).1 = []) := by
  unfold reportedFindings emitFindings
  by_cases h : (extraFindings cfg report).1.isEmpty
  · have heq : (extraFindings cfg report).1 = [] := List.isEmpty_iff.mp h
    simp [h, heq]
  · simp [h]

/-- Evaluation of C10 on a document with a count-containment error: no
warnings are reported (the missing-disclaimer warning is suppressed). -/
theorem warnings_only_without_errors_witness :
    (reportedFindings (Config.mk [] false false "core")
      (Json.obj [("data", Json.obj [("N", Json.int 5), ("invalid_count", Json.int 7)])])).2
      = [] := by
  apply (warnings_only_without_errors (Config.mk [] false false "core")
    (Json.obj [("data", Json.obj [("N", Json.int 5), ("invalid_count", Json.int 7)])])).1
  rw [show (extraFindings (Config.mk [] false false "core")
      (Json.obj [("data", Json.obj [("N", Json.int 5), ("invalid_count", Json.int 7)])])).1 =
      [Msg.countContain 7 5] from rfl]
  simp
